import Mathlib

/-!
Verification of the redeem-code authorization and usage-accounting engine of
the SHOP repository.

The embedding translates, from the TypeScript source:
  * the `redeem_codes` record shape and the `MemStorage` redeem-code methods
    (`shared/schema.ts`): `getRedeemCodeByCode`, `createRedeemCode`,
    `updateRedeemCode`, `deleteRedeemCode`, `incrementRedeemCodeUsage`;
  * the Express routes `POST /api/redeem` (with its `redeemValidation`
    middleware chain), `POST /api/admin/redeem-codes` and
    `PUT /api/admin/redeem-codes/:id`.

JavaScript conventions carried over explicitly:
  * `undefined`/absent is `none`; JS falsiness of `0`, `""`, `null` is
    modelled where the source relies on it (`|| 1`, `|| null`, `|| false`);
  * timestamps are integers (millisecond clock readings compared with `<`);
  * the in-memory `Map` keyed by record id is a list of records in insertion
    order; `Map.set` replaces the entries carrying the key when present and
    appends otherwise; `Array.from(map.values()).find(p)` is `List.find?`;
  * `String.prototype.toUpperCase` and the `trim()` sanitizer of the
    validation middleware are modelled on ASCII strings.
-/

namespace Shop

/-- The `value` jsonb payload as the redemption path reads it:
`(redeemCode.value as any)?.downloadUrl` and `...?.fileName`. -/
structure Value where
  downloadUrl : Option String := none
  fileName : Option String := none
deriving DecidableEq

/-- A stored `redeem_codes` row (`shared/schema.ts`, table `redeem_codes`). -/
structure RedeemCode where
  id : String
  code : String
  type : String
  value : Value
  productId : Option String
  isMasterCode : Bool
  isActive : Bool
  usageLimit : Option Int
  usageCount : Int
  expiresAt : Option Int
  createdBy : String
  createdAt : Int
deriving DecidableEq

/-- A parsed `insertRedeemCodeSchema` value: `createInsertSchema(redeemCodes)`
with `id`, `createdAt`, `usageCount` omitted.  The drizzle-zod parse checks
only field presence and primitive types, which the typing of this structure
captures; columns that are nullable or carry defaults are optional. -/
structure InsertRedeemCode where
  code : String
  type : String
  value : Value
  productId : Option String := none
  isMasterCode : Option Bool := none
  isActive : Option Bool := none
  usageLimit : Option Int := none
  expiresAt : Option Int := none
  createdBy : String
deriving DecidableEq

/-- A raw JSON body for `PUT /api/admin/redeem-codes/:id`.  The route passes
`req.body` to `updateRedeemCode` without schema validation, so every column of
the record can occur, `usageCount` included; `none` means the key is absent
from the body. -/
structure RedeemCodeUpdate where
  code : Option String := none
  type : Option String := none
  value : Option Value := none
  productId : Option (Option String) := none
  isMasterCode : Option Bool := none
  isActive : Option Bool := none
  usageLimit : Option (Option Int) := none
  usageCount : Option Int := none
  expiresAt : Option (Option Int) := none
  createdBy : Option String := none
deriving DecidableEq

/-- The in-memory store: `MemStorage.redeemCodes`, a `Map` keyed by `id`,
kept in insertion order. -/
abbrev Store := List RedeemCode

/-- `Map.set(id, r)`: replace the entries keyed `id` when the key is present,
append otherwise. -/
def storeSet (store : Store) (id : String) (r : RedeemCode) : Store :=
  if store.any (fun x => x.id == id) then
    store.map (fun x => if x.id == id then r else x)
  else
    store ++ [r]

/-- `MemStorage.getRedeemCodeByCode`: scan the values for an exact (`===`)
match on the stored `code` token. -/
def getRedeemCodeByCode (store : Store) (code : String) : Option RedeemCode :=
  store.find? (fun r => r.code == code)

/-- `MemStorage.createRedeemCode`.  `freshId` stands for `randomUUID()` and
`nowT` for `new Date()`.  JS falsiness is preserved: `usageLimit || 1` turns
`undefined`, `null` and `0` into `1`; `productId || null` turns `""` into
`null`; `isActive !== undefined ? isActive : true`; `isMasterCode || false`.
The `code` token is stored verbatim. -/
def createRedeemCode (store : Store) (ins : InsertRedeemCode)
    (freshId : String) (nowT : Int) : RedeemCode × Store :=
  let r : RedeemCode :=
    { id := freshId
      code := ins.code
      type := ins.type
      value := ins.value
      isActive := ins.isActive.getD true
      usageLimit := some (match ins.usageLimit with
        | some l => if l == 0 then 1 else l
        | none => 1)
      usageCount := 0
      expiresAt := ins.expiresAt
      productId := (match ins.productId with
        | some p => if p == "" then none else some p
        | none => none)
      isMasterCode := ins.isMasterCode.getD false
      createdBy := ins.createdBy
      createdAt := nowT }
  (r, storeSet store freshId r)

/-- `MemStorage.updateRedeemCode`: on a hit, spread the update over the
record (`{...redeemCode, ...updateData, id, createdAt: redeemCode.createdAt}`)
and store it back; on a miss return `undefined` and leave the store alone. -/
def updateRedeemCode (store : Store) (id : String) (upd : RedeemCodeUpdate) :
    Option RedeemCode × Store :=
  match store.find? (fun r => r.id == id) with
  | none => (none, store)
  | some r =>
    let updated : RedeemCode :=
      { id := id
        code := upd.code.getD r.code
        type := upd.type.getD r.type
        value := upd.value.getD r.value
        productId := upd.productId.getD r.productId
        isMasterCode := upd.isMasterCode.getD r.isMasterCode
        isActive := upd.isActive.getD r.isActive
        usageLimit := upd.usageLimit.getD r.usageLimit
        usageCount := upd.usageCount.getD r.usageCount
        expiresAt := upd.expiresAt.getD r.expiresAt
        createdBy := upd.createdBy.getD r.createdBy
        createdAt := r.createdAt }
    (some updated, storeSet store id updated)

/-- `MemStorage.deleteRedeemCode`. -/
def deleteRedeemCode (store : Store) (id : String) : Bool × Store :=
  (store.any (fun r => r.id == id), store.filter (fun r => !(r.id == id)))

/-- `MemStorage.incrementRedeemCodeUsage`: on a hit, unconditionally add one
to `usageCount` and store the record back.  The TypeScript method returns
`Promise<void>`: it performs no limit check and reports no success or failure,
which is why the embedded operation returns only the new store. -/
def incrementRedeemCodeUsage (store : Store) (id : String) : Store :=
  match store.find? (fun r => r.id == id) with
  | none => store
  | some r => storeSet store id { r with usageCount := r.usageCount + 1 }

/-! ### JS string primitives used by the routes -/

/-- `String.prototype.toUpperCase` on one ASCII character. -/
def upChar (c : Char) : Char :=
  if 97 ≤ c.toNat ∧ c.toNat ≤ 122 then Char.ofNat (c.toNat - 32) else c

/-- `String.prototype.toUpperCase`, ASCII model. -/
def toUpperCaseJs (s : String) : String :=
  ⟨s.data.map upChar⟩

/-- Whitespace stripped by the `trim()` sanitizer of the validation
middleware (ASCII model). -/
def isJsSpace (c : Char) : Bool :=
  c == ' ' || c == '\t' || c == '\n' || c == '\r' || c == '\x0b' || c == '\x0c'

/-- The `trim()` sanitizer: strip leading and trailing whitespace. -/
def jsTrim (s : String) : String :=
  ⟨((s.data.dropWhile isJsSpace).reverse.dropWhile isJsSpace).reverse⟩

/-! ### The redemption route `POST /api/redeem` -/

/-- Outcome of the redemption route, one constructor per `return` site. -/
inductive RedeemResult where
  | validationError
  | missingParams
  | notFound
  | inactive
  | expired
  | usageLimitReached
  | scopeMismatch
  | success (downloadUrl fileName : Option String) (codeType : String)
deriving DecidableEq

/-- The expiry test of the route:
`redeemCode.expiresAt && new Date(redeemCode.expiresAt) < new Date()`.
A stored `Date` is always truthy, so the guard is just the null check. -/
def expiredB (r : RedeemCode) (now : Int) : Bool :=
  match r.expiresAt with
  | some t => decide (t < now)
  | none => false

/-- The usage-limit test of the route:
`redeemCode.usageLimit && redeemCode.usageCount >= redeemCode.usageLimit`.
A stored limit of `0` is falsy, hence treated as no limit. -/
def limitReachedB (r : RedeemCode) : Bool :=
  match r.usageLimit with
  | some l => !(l == 0) && decide (r.usageCount ≥ l)
  | none => false

/-- The scope test of the route:
`redeemCode.isMasterCode || redeemCode.productId === productId`. -/
def scopeOkB (r : RedeemCode) (productId : String) : Bool :=
  r.isMasterCode || r.productId == some productId

/-- The handler body of `POST /api/redeem`, after the validation middleware
has run: the `!code || !productId` guard, the uppercased lookup, the four
rejection checks in source order, then the increment and the success
payload. -/
def redeemHandler (store : Store) (code productId : String) (now : Int) :
    RedeemResult × Store :=
  if code == "" || productId == "" then (.missingParams, store)
  else
    match getRedeemCodeByCode store (toUpperCaseJs code) with
    | none => (.notFound, store)
    | some r =>
      if !r.isActive then (.inactive, store)
      else if expiredB r now then (.expired, store)
      else if limitReachedB r then (.usageLimitReached, store)
      else if !(scopeOkB r productId) then (.scopeMismatch, store)
      else
        (.success r.value.downloadUrl r.value.fileName
          (if r.isMasterCode then "master" else "product"),
         incrementRedeemCodeUsage store r.id)

/-- The full `POST /api/redeem` route: the `redeemValidation` middleware
(`body('code').trim().isLength({min:1,max:100})` and the same for
`productId` — the `trim()` sanitizer rewrites the body in place, so the
handler receives the trimmed values), then the handler. -/
def redeemApi (store : Store) (code productId : String) (now : Int) :
    RedeemResult × Store :=
  if 1 ≤ (jsTrim code).length ∧ (jsTrim code).length ≤ 100 ∧
     1 ≤ (jsTrim productId).length ∧ (jsTrim productId).length ≤ 100 then
    redeemHandler store (jsTrim code) (jsTrim productId) now
  else (.validationError, store)

/-! ### The admin routes -/

/-- `POST /api/admin/redeem-codes`: reject a missing session admin id
(`!adminId`, so the empty string is also rejected), parse the body together
with `createdBy: adminId` through `insertRedeemCodeSchema` (shape-only, see
`InsertRedeemCode`), then create.  `none` models the 401 response. -/
def adminCreateRedeemCode (store : Store) (adminId : String)
    (ins : InsertRedeemCode) (freshId : String) (nowT : Int) :
    Option RedeemCode × Store :=
  if adminId == "" then (none, store)
  else
    let rs := createRedeemCode store { ins with createdBy := adminId } freshId nowT
    (some rs.1, rs.2)

/-- `PUT /api/admin/redeem-codes/:id`: the raw `req.body` goes straight to
`updateRedeemCode`; `none` models the 404 response. -/
def adminUpdateRedeemCode (store : Store) (id : String)
    (body : RedeemCodeUpdate) : Option RedeemCode × Store :=
  updateRedeemCode store id body

/-! ### The decision cascade in isolation -/

/-- The four checks of the redemption handler on a record the lookup found,
in source order, together with the success payload it would build.  This is
the cascade of `redeemHandler` with the store threading removed;
`redeemHandler_eval` below proves the factoring. -/
def evaluateCode (r : RedeemCode) (productId : String) (now : Int) :
    RedeemResult :=
  if !r.isActive then .inactive
  else if expiredB r now then .expired
  else if limitReachedB r then .usageLimitReached
  else if !(scopeOkB r productId) then .scopeMismatch
  else
    .success r.value.downloadUrl r.value.fileName
      (if r.isMasterCode then "master" else "product")

/-- Spec-side decisions of the authorization evaluator (§4.2 of the spec). -/
inductive Decision where
  | accept
  | notFound
  | inactive
  | expired
  | usageLimitReached
  | scopeMismatch
deriving DecidableEq

/-- Forget the success payload of a route outcome, keeping the decision.
The middleware outcomes, which the evaluator never produces, are mapped to
`notFound`. -/
def toDecision : RedeemResult → Decision
  | .success _ _ _ => .accept
  | .inactive => .inactive
  | .expired => .expired
  | .usageLimitReached => .usageLimitReached
  | .scopeMismatch => .scopeMismatch
  | _ => .notFound

/-- Modelled from the spec, §4.2: checks in the exact order NotFound,
Inactive, Expired (`expiresAt` set and `now > expiresAt`),
UsageLimitReached (`usageLimit` set and `usageCount >= usageLimit`), then
scope (`Master` accepts, matching product accepts, otherwise
`ScopeMismatch`).  Written from the wording of the spec for comparison with
the cascade translated from the route. -/
def evaluateSpecOrder (rc : Option RedeemCode) (targetProductId : String)
    (now : Int) : Decision :=
  match rc with
  | none => .notFound
  | some r =>
    if r.isActive = false then .inactive
    else if (match r.expiresAt with
      | some t => decide (now > t)
      | none => false) then .expired
    else if (match r.usageLimit with
      | some l => decide (r.usageCount ≥ l)
      | none => false) then .usageLimitReached
    else if r.isMasterCode then .accept
    else if r.productId = some targetProductId then .accept
    else .scopeMismatch

/-! ### Concrete sample data for evaluations -/

/-- A download payload with both descriptor fields present. -/
def sampleValue : Value :=
  { downloadUrl := some "https://dl.example/x.zip", fileName := some "x.zip" }

/-- An active, unexpired master code with two uses left. -/
def sampleMaster : RedeemCode :=
  { id := "id-master"
    code := "MASTER1"
    type := "download"
    value := sampleValue
    productId := none
    isMasterCode := true
    isActive := true
    usageLimit := some 2
    usageCount := 0
    expiresAt := none
    createdBy := "adm"
    createdAt := 0 }

/-- An insert spec for a product-scoped code with no usage limit and no
expiry, as in scenario 2 of the spec. -/
def samplePCode1 : InsertRedeemCode :=
  { code := "PCODE1"
    type := "download"
    value := sampleValue
    productId := some "X"
    createdBy := "adm" }

/-- An insert spec whose `code` token contains lowercase letters. -/
def sampleLowerIns : InsertRedeemCode :=
  { code := "save20"
    type := "download"
    value := sampleValue
    isMasterCode := some true
    usageLimit := some 100
    createdBy := "adm" }

/-- An insert spec violating every §4.4 validation rule of the spec at once:
master scope and a product id together, a negative usage limit, and a
"download" payload missing `downloadUrl` and `fileName`. -/
def sampleBadIns : InsertRedeemCode :=
  { code := "BAD1"
    type := "download"
    value := { downloadUrl := none, fileName := none }
    productId := some "p1"
    isMasterCode := some true
    usageLimit := some (-5)
    createdBy := "adm" }

/-! ### General lemmas about the embedded operations -/

theorem toUpperCaseJs_length (s : String) :
    (toUpperCaseJs s).length = s.length := by
  show (s.data.map upChar).length = s.data.length
  exact List.length_map _ _

theorem beq_empty_eq_false {s : String} (h : s ≠ "") : (s == "") = false := by
  simpa using h

/-- The handler is the lookup followed by the decision cascade
`evaluateCode`, with the increment exactly on the success branch. -/
theorem redeemHandler_eq (store : Store) (c p : String) (now : Int) :
    redeemHandler store c p now =
      if c == "" || p == "" then (.missingParams, store)
      else
        match getRedeemCodeByCode store (toUpperCaseJs c) with
        | none => (.notFound, store)
        | some r =>
          match evaluateCode r p now with
          | .success d f ct => (.success d f ct, incrementRedeemCodeUsage store r.id)
          | res => (res, store) := by
  unfold redeemHandler evaluateCode
  by_cases h0 : (c == "" || p == "") = true
  · simp [h0]
  · rw [Bool.not_eq_true] at h0
    simp only [h0, Bool.false_eq_true, if_false]
    cases hq : getRedeemCodeByCode store (toUpperCaseJs c) with
    | none => rfl
    | some r =>
      by_cases h1 : (!r.isActive) = true
      · simp [h1]
      · rw [Bool.not_eq_true] at h1
        by_cases h2 : expiredB r now = true
        · simp [h1, h2]
        · rw [Bool.not_eq_true] at h2
          by_cases h3 : limitReachedB r = true
          · simp [h1, h2, h3]
          · rw [Bool.not_eq_true] at h3
            by_cases h4 : (!scopeOkB r p) = true
            · simp [h1, h2, h3, h4]
            · rw [Bool.not_eq_true] at h4
              simp [h1, h2, h3, h4]

theorem map_if_untouched (l : Store) (id : String) (y : RedeemCode)
    (h : ∀ x ∈ l, x.id ≠ id) :
    (l.map fun x => if x.id == id then y else x) = l := by
  induction l with
  | nil => rfl
  | cons a t ih =>
    have ha : (a.id == id) = false := by
      simpa using h a (List.mem_cons_self a t)
    simp only [List.map_cons, ha, Bool.false_eq_true, if_false]
    rw [ih fun x hx => h x (List.mem_cons_of_mem a hx)]

theorem find?_append_none (pre t : Store) (p : RedeemCode → Bool)
    (h : ∀ x ∈ pre, p x = false) :
    (pre ++ t).find? p = t.find? p := by
  induction pre with
  | nil => rfl
  | cons a s ih =>
    have ha : p a = false := h a (List.mem_cons_self a s)
    simp only [List.cons_append, List.find?_cons, ha]
    exact ih fun x hx => h x (List.mem_cons_of_mem a hx)

theorem incrementRedeemCodeUsage_split (pre post : Store) (r : RedeemCode)
    (hpre : ∀ x ∈ pre, x.id ≠ r.id) (hpost : ∀ x ∈ post, x.id ≠ r.id) :
    incrementRedeemCodeUsage (pre ++ r :: post) r.id =
      pre ++ { r with usageCount := r.usageCount + 1 } :: post := by
  unfold incrementRedeemCodeUsage
  rw [find?_append_none pre (r :: post) _ (fun x hx => by simpa using hpre x hx)]
  simp only [List.find?_cons, beq_self_eq_true, if_true]
  unfold storeSet
  have hany : ((pre ++ r :: post).any fun x => x.id == r.id) = true := by
    simp [List.any_append]
  rw [if_pos hany, List.map_append, map_if_untouched pre _ _ hpre]
  simp only [List.map_cons, beq_self_eq_true, if_true]
  rw [map_if_untouched post _ _ hpost]

theorem nodupIds_split (store : Store) (r : RedeemCode)
    (h : (store.map (·.id)).Nodup) (hr : r ∈ store) :
    ∃ pre post, store = pre ++ r :: post ∧
      (∀ x ∈ pre, x.id ≠ r.id) ∧ (∀ x ∈ post, x.id ≠ r.id) := by
  obtain ⟨pre, post, rfl⟩ := List.append_of_mem hr
  have hmid : (r.id :: (pre.map (·.id) ++ post.map (·.id))).Nodup :=
    List.nodup_middle.mp (by simpa [List.map_append] using h)
  have hnm := (List.nodup_cons.mp hmid).1
  refine ⟨pre, post, rfl, ?_, ?_⟩
  · intro x hx hxe
    exact hnm (by
      simp only [List.mem_append, List.mem_map]
      exact Or.inl ⟨x, hx, hxe⟩)
  · intro x hx hxe
    exact hnm (by
      simp only [List.mem_append, List.mem_map]
      exact Or.inr ⟨x, hx, hxe⟩)

/-! ### The claims -/

/-- C1: the spec requires `usageCount <= usageLimit` as an inviolable store
invariant, with the repository increment refusing to increment and reporting
failure once `usageCount` has reached `usageLimit`.  The code violates this:
`MemStorage.incrementRedeemCodeUsage` returns `Promise<void>`, checks nothing,
and increments unconditionally.  Evaluated at a code whose `usageCount` (1)
already equals its `usageLimit` (1), the increment pushes `usageCount` to 2,
breaking the invariant, and no failure can be reported because the operation
has no result channel. -/
theorem C1_increment_no_guard :
    ({ sampleMaster with usageLimit := some 1, usageCount := 1 } :
        RedeemCode).usageCount = 1
  ∧ ({ sampleMaster with usageLimit := some 1, usageCount := 1 } :
        RedeemCode).usageLimit = some 1
  ∧ ((incrementRedeemCodeUsage
        [{ sampleMaster with usageLimit := some 1, usageCount := 1 }]
        "id-master").map (fun r => r.usageCount)) = [2]
  ∧ ¬ ((2 : Int) ≤ 1) := by decide

/-- C4: the claim says an admin update can never change `usageCount`.  The
code violates this: `PUT /api/admin/redeem-codes/:id` hands the raw request
body to `updateRedeemCode`, which spreads it over the stored record, so a
body containing `usageCount: 999` overwrites the stored count (here from 0
to 999). -/
theorem C4_update_sets_usageCount :
    sampleMaster.usageCount = 0
  ∧ ((adminUpdateRedeemCode [sampleMaster] "id-master"
        { usageCount := some 999 }).2.map (fun r => r.usageCount)) = [999]
  ∧ ((adminUpdateRedeemCode [sampleMaster] "id-master"
        { usageCount := some 999 }).1.map (fun r => r.usageCount)) = some 999 := by
  decide

/-- C5 counterexample: the claim says tokens are canonicalized to uppercase
for storage.  They are not: `createRedeemCode` stores the token verbatim, so
an admin-created code `"save20"` is stored as `"save20"`, and — since every
redemption looks up the trimmed, uppercased input with an exact match — even
redeeming the stored spelling `"save20"` answers NotFound although the code
sits in the store, active, master-scoped and under its limit. -/
theorem C5_storage_not_canonicalized :
    (createRedeemCode [] sampleLowerIns "id-low" 0).1.code = "save20"
  ∧ toUpperCaseJs "save20" = "SAVE20"
  ∧ ("save20" : String) ≠ "SAVE20"
  ∧ (redeemApi (createRedeemCode [] sampleLowerIns "id-low" 0).2
      "save20" "p1" 5).1 = .notFound
  ∧ (createRedeemCode [] sampleLowerIns "id-low" 0).1.isActive = true
  ∧ (createRedeemCode [] sampleLowerIns "id-low" 0).1.isMasterCode = true := by
  decide

/-- C6 counterexample: the claim says creating a redeem code fails with a
DuplicateCode error when the token already exists and leaves the store
unchanged.  The code has no duplicate check and no failure outcome at all:
creating `"MASTER1"` over a store that already holds `"MASTER1"` succeeds,
returns the new record, and leaves two records with the same token. -/
theorem C6_duplicate_code_accepted :
    ((createRedeemCode [sampleMaster]
        { code := "MASTER1", type := "download", value := sampleValue,
          createdBy := "adm" } "id2" 0).2.map (fun r => r.code))
      = ["MASTER1", "MASTER1"]
  ∧ (createRedeemCode [sampleMaster]
        { code := "MASTER1", type := "download", value := sampleValue,
          createdBy := "adm" } "id2" 0).1.id = "id2" := by
  decide

/-- C7 counterexample: the claim says a code created without a `usageLimit`
is unlimited and indefinitely redeemable.  In the code, `usageLimit || 1`
defaults the missing limit to 1: the product-scoped code `PCODE1` created
with no usage limit succeeds once against its product `X` and the second
attempt is rejected with UsageLimitReached. -/
theorem C7_default_limit_one :
    (createRedeemCode [] samplePCode1 "id-p" 0).1.usageLimit = some 1
  ∧ (redeemHandler (createRedeemCode [] samplePCode1 "id-p" 0).2
      "PCODE1" "X" 5).1
      = .success (some "https://dl.example/x.zip") (some "x.zip") "product"
  ∧ (redeemHandler
      (redeemHandler (createRedeemCode [] samplePCode1 "id-p" 0).2
        "PCODE1" "X" 5).2
      "PCODE1" "X" 5).1 = .usageLimitReached := by
  decide

/-- C8 counterexample: the claim says admin creation rejects, with no state
change, specs that set both master scope and a product id, a non-positive
usage limit, or a download payload missing its descriptor fields.  The route
only runs `insertRedeemCodeSchema.parse`, a shape check: a spec violating
all three rules at once is accepted and the code is created and stored. -/
theorem C8_invalid_spec_accepted :
    (adminCreateRedeemCode [] "adm1" sampleBadIns "id-bad" 0).1.isSome = true
  ∧ ((adminCreateRedeemCode [] "adm1" sampleBadIns "id-bad" 0).2.map
      (fun r => (r.isMasterCode, r.productId, r.usageLimit,
                 r.value.downloadUrl, r.value.fileName)))
      = [(true, some "p1", some (-5), none, none)] := by
  decide

theorem redeemHandler_congr_key (store : Store) (c1 c2 p : String) (now : Int)
    (h1 : c1 ≠ "") (h2 : c2 ≠ "")
    (hkey : toUpperCaseJs c1 = toUpperCaseJs c2) :
    redeemHandler store c1 p now = redeemHandler store c2 p now := by
  unfold redeemHandler
  rw [beq_empty_eq_false h1, beq_empty_eq_false h2, hkey]

/-- C5 amended: the redemption route trims (via the validation middleware
sanitizer) and uppercases `codeText` before the lookup, so any two accepted
inputs with the same trimmed-and-uppercased form reach the same decision —
in particular inputs differing only in letter case or surrounding
whitespace.  Tokens are NOT canonicalized for storage: creation stores the
token verbatim, so a stored token that is not already uppercase is never
matched by any lookup. -/
theorem C5_lookup_canonicalization (store : Store) (s1 s2 p : String)
    (now : Int)
    (hkey : toUpperCaseJs (jsTrim s1) = toUpperCaseJs (jsTrim s2))
    (hlo : 1 ≤ (jsTrim s1).length) :
    redeemApi store s1 p now = redeemApi store s2 p now
  ∧ ∀ (st : Store) (ins : InsertRedeemCode) (fid : String) (t : Int),
      (createRedeemCode st ins fid t).1.code = ins.code := by
  refine ⟨?_, fun st ins fid t => rfl⟩
  have hlen : (jsTrim s2).length = (jsTrim s1).length := by
    rw [← toUpperCaseJs_length (jsTrim s1), ← toUpperCaseJs_length (jsTrim s2),
      hkey]
  have hne1 : jsTrim s1 ≠ "" := by
    intro h
    rw [h] at hlo
    simp at hlo
  have hne2 : jsTrim s2 ≠ "" := by
    intro h
    rw [h] at hlen
    rw [← hlen] at hlo
    simp at hlo
  unfold redeemApi
  rw [hlen]
  by_cases hC : 1 ≤ (jsTrim s1).length ∧ (jsTrim s1).length ≤ 100 ∧
      1 ≤ (jsTrim p).length ∧ (jsTrim p).length ≤ 100
  · rw [if_pos hC, if_pos hC]
    exact redeemHandler_congr_key store (jsTrim s1) (jsTrim s2) (jsTrim p) now
      hne1 hne2 hkey
  · rw [if_neg hC, if_neg hC]

/-- C5 witness: redeeming `"master1"` and redeeming `"  MASTER1 "` reach the
same decision. -/
theorem C5_lookup_canonicalization_witness :
    redeemApi [sampleMaster] "master1" "p1" 5
      = redeemApi [sampleMaster] "  MASTER1 " "p1" 5 :=
  (C5_lookup_canonicalization [sampleMaster] "master1" "  MASTER1 " "p1" 5
    (by decide) (by decide)).1

/-- C6 amended: creation never fails and performs no duplicate check — there
is no DuplicateCode outcome in the code at all.  For a fresh id it appends
the new record to the store; the record carries the supplied id and starts
with `usageCount = 0`. -/
theorem C6_create_always_succeeds (store : Store) (ins : InsertRedeemCode)
    (fid : String) (t : Int) (hfresh : ∀ x ∈ store, x.id ≠ fid) :
    (createRedeemCode store ins fid t).2
      = store ++ [(createRedeemCode store ins fid t).1]
  ∧ (createRedeemCode store ins fid t).1.id = fid
  ∧ (createRedeemCode store ins fid t).1.usageCount = 0 := by
  refine ⟨?_, rfl, rfl⟩
  show storeSet store fid (createRedeemCode store ins fid t).1 = _
  unfold storeSet
  rw [if_neg]
  intro hc
  obtain ⟨x, hx, hxe⟩ := List.any_eq_true.mp hc
  exact hfresh x hx (by simpa using hxe)

/-- C6 witness: creating `PCODE1` over a store holding `MASTER1` appends a
fresh record with `usageCount = 0`. -/
theorem C6_create_always_succeeds_witness :
    (createRedeemCode [sampleMaster] samplePCode1 "id-w" 0).2
      = [sampleMaster] ++ [(createRedeemCode [sampleMaster] samplePCode1 "id-w" 0).1]
  ∧ (createRedeemCode [sampleMaster] samplePCode1 "id-w" 0).1.id = "id-w"
  ∧ (createRedeemCode [sampleMaster] samplePCode1 "id-w" 0).1.usageCount = 0 :=
  C6_create_always_succeeds [sampleMaster] samplePCode1 "id-w" 0 (by decide)

/-- C7 amended: a code created without a `usageLimit` is not unlimited — the
creation path defaults the limit to 1 (`usageLimit || 1`), so the code can
be redeemed successfully at most once: as soon as `usageCount` reaches 1,
the decision cascade never again returns success.  Only a stored
`usageLimit` of `null` (never produced by creation) behaves as unlimited. -/
theorem C7_missing_limit_defaults_to_one :
    (∀ (store : Store) (ins : InsertRedeemCode) (fid : String) (t : Int),
        ins.usageLimit = none →
        (createRedeemCode store ins fid t).1.usageLimit = some 1)
  ∧ (∀ (r : RedeemCode) (p : String) (now : Int),
        r.usageLimit = some 1 → 1 ≤ r.usageCount →
        ∀ d f ct, evaluateCode r p now ≠ .success d f ct)
  ∧ (∀ (r : RedeemCode) (p : String) (now : Int),
        r.usageLimit = none → evaluateCode r p now ≠ .usageLimitReached) := by
  refine ⟨?_, ?_, ?_⟩
  · intro store ins fid t h
    simp [createRedeemCode, h]
  · intro r p now hlim hcount d f ct
    have hLB : limitReachedB r = true := by
      unfold limitReachedB
      rw [hlim]
      simp [hcount]
    unfold evaluateCode
    by_cases h1 : (!r.isActive) = true
    · simp [h1]
    · by_cases h2 : expiredB r now = true
      · simp [h1, h2]
      · simp [h1, h2, hLB]
  · intro r p now hlim
    have hLB : limitReachedB r = false := by
      unfold limitReachedB
      rw [hlim]
    unfold evaluateCode
    by_cases h1 : (!r.isActive) = true
    · simp [h1]
    · by_cases h2 : expiredB r now = true
      · simp [h1, h2]
      · by_cases h3 : (!scopeOkB r p) = true
        · simp [h1, h2, hLB, h3]
        · simp [h1, h2, hLB, h3]

/-- C7 amended witness at concrete codes. -/
theorem C7_missing_limit_defaults_to_one_witness :
    (createRedeemCode [] samplePCode1 "id-p2" 0).1.usageLimit = some 1
  ∧ evaluateCode { sampleMaster with usageLimit := some 1, usageCount := 1 }
      "X" 5 ≠ .success (some "a") (some "b") "master"
  ∧ evaluateCode { sampleMaster with usageLimit := none } "X" 5
      ≠ .usageLimitReached :=
  ⟨C7_missing_limit_defaults_to_one.1 [] samplePCode1 "id-p2" 0 rfl,
   C7_missing_limit_defaults_to_one.2.1 _ "X" 5 rfl (by decide)
     (some "a") (some "b") "master",
   C7_missing_limit_defaults_to_one.2.2 _ "X" 5 rfl⟩

/-- C8 amended: admin creation runs only the shape-level
`insertRedeemCodeSchema` parse; it performs no scope-exclusivity,
limit-positivity or payload-completeness validation, so every parsed spec —
including the ones §4.4 of the spec says must be rejected — results in a
created, stored code. -/
theorem C8_create_no_semantic_validation (store : Store) (adminId : String)
    (ins : InsertRedeemCode) (fid : String) (t : Int)
    (hadmin : adminId ≠ "") :
    ∃ r, adminCreateRedeemCode store adminId ins fid t
      = (some r, storeSet store fid r) := by
  refine ⟨(createRedeemCode store { ins with createdBy := adminId } fid t).1, ?_⟩
  unfold adminCreateRedeemCode
  rw [if_neg (by simpa using hadmin)]
  rfl

/-- C8 witness: the all-rules-violating spec is created and stored. -/
theorem C8_create_no_semantic_validation_witness :
    ∃ r, adminCreateRedeemCode [] "adm1" sampleBadIns "id-b2" 0
      = (some r, storeSet [] "id-b2" r) :=
  C8_create_no_semantic_validation [] "adm1" sampleBadIns "id-b2" 0 (by decide)

theorem evaluateCode_success (r : RedeemCode) (p : String) (now : Int)
    (ha : r.isActive = true)
    (hexp : ∀ t, r.expiresAt = some t → ¬ t < now)
    (hlim : ∀ l, r.usageLimit = some l → r.usageCount < l)
    (hscope : scopeOkB r p = true) :
    evaluateCode r p now
      = .success r.value.downloadUrl r.value.fileName
          (if r.isMasterCode then "master" else "product") := by
  have hE : expiredB r now = false := by
    unfold expiredB
    cases hx : r.expiresAt with
    | none => rfl
    | some t => simpa using hexp t hx
  have hL : limitReachedB r = false := by
    unfold limitReachedB
    cases hx : r.usageLimit with
    | none => rfl
    | some l => simp [not_le.mpr (hlim l hx)]
  unfold evaluateCode
  simp [ha, hE, hL, hscope]

/-- The route cascade, projected to a decision, agrees with the evaluator
written from the wording of §4.2 of the spec, on records with positive
usage limits. -/
theorem evaluateCode_matches_spec (r : RedeemCode) (p : String) (now : Int)
    (hpos : ∀ l : Int, r.usageLimit = some l → 0 < l) :
    toDecision (evaluateCode r p now) = evaluateSpecOrder (some r) p now := by
  have hexpB : expiredB r now = (match r.expiresAt with
      | some t => decide (now > t)
      | none => false) := by
    unfold expiredB
    cases r.expiresAt with
    | none => rfl
    | some t => simp [gt_iff_lt]
  have hlimB : limitReachedB r = (match r.usageLimit with
      | some l => decide (r.usageCount ≥ l)
      | none => false) := by
    unfold limitReachedB
    cases hul : r.usageLimit with
    | none => rfl
    | some l =>
      have hne : (l == 0) = false := by simpa using (hpos l hul).ne'
      simp [hne]
  unfold evaluateCode evaluateSpecOrder
  rw [hexpB, hlimB]
  cases hA : r.isActive with
  | false => simp [hA, toDecision]
  | true =>
    simp only [hA, Bool.not_true, Bool.false_eq_true, if_false]
    by_cases hE : (match r.expiresAt with
        | some t => decide (now > t)
        | none => false) = true
    · simp [hA, hE, toDecision]
    · rw [Bool.not_eq_true] at hE
      simp only [hE, Bool.false_eq_true, if_false]
      by_cases hL : (match r.usageLimit with
          | some l => decide (r.usageCount ≥ l)
          | none => false) = true
      · simp [hA, hE, hL, toDecision]
      · rw [Bool.not_eq_true] at hL
        simp only [hL, Bool.false_eq_true, if_false]
        cases hM : r.isMasterCode with
        | true => simp [hA, hE, hL, scopeOkB, hM, toDecision]
        | false =>
          by_cases hP : r.productId = some p
          · simp [hA, hE, hL, scopeOkB, hM, hP, toDecision]
          · simp [hA, hE, hL, scopeOkB, hM, hP, toDecision]

/-- C2: the redemption decision is computed by the checks NotFound,
Inactive, Expired, UsageLimitReached, ScopeMismatch, in exactly the order
and with exactly the short-circuiting that §4.2 of the spec fixes (stated
as agreement with the evaluator written from the wording of the spec, on
stores whose usage limits are positive as §3 requires); in particular a
code that is both inactive and expired is reported Inactive, not Expired. -/
theorem C2_checks_in_spec_order (store : Store) (c p : String) (now : Int)
    (hc : c ≠ "") (hp : p ≠ "")
    (hpos : ∀ r ∈ store, ∀ l : Int, r.usageLimit = some l → 0 < l) :
    toDecision (redeemHandler store c p now).1
      = evaluateSpecOrder (getRedeemCodeByCode store (toUpperCaseJs c)) p now
  ∧ (∀ r : RedeemCode, r.isActive = false → expiredB r now = true →
      evaluateCode r p now = .inactive) := by
  constructor
  · rw [redeemHandler_eq, beq_empty_eq_false hc, beq_empty_eq_false hp]
    simp only [Bool.or_self, Bool.false_eq_true, if_false]
    cases hq : getRedeemCodeByCode store (toUpperCaseJs c) with
    | none => rfl
    | some r =>
      have hr : r ∈ store := List.mem_of_find?_eq_some hq
      have hfst : (match evaluateCode r p now with
          | .success d f ct =>
            (RedeemResult.success d f ct, incrementRedeemCodeUsage store r.id)
          | res => (res, store)).1 = evaluateCode r p now := by
        cases evaluateCode r p now <;> rfl
      rw [hfst]
      exact evaluateCode_matches_spec r p now (hpos r hr)
  · intro r hA _
    unfold evaluateCode
    simp [hA]

/-- C2 witness: a concrete inactive and expired master code is reported
Inactive, and the handler agrees with the spec evaluator on that store. -/
theorem C2_checks_in_spec_order_witness :
    toDecision (redeemHandler
        [{ sampleMaster with isActive := false, expiresAt := some 1 }]
        "MASTER1" "p1" 5).1
      = evaluateSpecOrder (getRedeemCodeByCode
          [{ sampleMaster with isActive := false, expiresAt := some 1 }]
          (toUpperCaseJs "MASTER1")) "p1" 5
  ∧ (∀ r : RedeemCode, r.isActive = false → expiredB r 5 = true →
      evaluateCode r "p1" 5 = .inactive) :=
  C2_checks_in_spec_order
    [{ sampleMaster with isActive := false, expiresAt := some 1 }]
    "MASTER1" "p1" 5 (by decide) (by decide)
    (by
      intro r hr l hl
      simp only [List.mem_singleton] at hr
      subst hr
      simp [sampleMaster] at hl
      subst hl
      decide)

/-- C9: an active, unexpired, under-limit master code found by the lookup
redeems successfully against every accepted product id, answering the
download descriptor of its payload and codeType "master". -/
theorem C9_master_universality (store : Store) (code productId : String)
    (now : Int) (r : RedeemCode)
    (hfind : getRedeemCodeByCode store (toUpperCaseJs (jsTrim code)) = some r)
    (hc1 : 1 ≤ (jsTrim code).length) (hc2 : (jsTrim code).length ≤ 100)
    (hp1 : 1 ≤ (jsTrim productId).length)
    (hp2 : (jsTrim productId).length ≤ 100)
    (hm : r.isMasterCode = true) (ha : r.isActive = true)
    (hexp : ∀ t, r.expiresAt = some t → ¬ t < now)
    (hlim : ∀ l, r.usageLimit = some l → r.usageCount < l) :
    (redeemApi store code productId now).1
      = .success r.value.downloadUrl r.value.fileName "master" := by
  have hne : jsTrim code ≠ "" := by
    intro h
    rw [h] at hc1
    exact absurd hc1 (by decide)
  have hpne : jsTrim productId ≠ "" := by
    intro h
    rw [h] at hp1
    exact absurd hp1 (by decide)
  have heval : evaluateCode r (jsTrim productId) now
      = .success r.value.downloadUrl r.value.fileName "master" := by
    rw [evaluateCode_success r _ now ha hexp hlim (by simp [scopeOkB, hm]), hm]
    simp
  unfold redeemApi
  rw [if_pos ⟨hc1, hc2, hp1, hp2⟩, redeemHandler_eq,
    beq_empty_eq_false hne, beq_empty_eq_false hpne]
  simp only [Bool.or_self, Bool.false_eq_true, if_false, hfind, heval]

/-- C9 witness: the sample master code succeeds against product `"any-p"`. -/
theorem C9_master_universality_witness :
    (redeemApi [sampleMaster] " master1 " "any-p" 5).1
      = .success sampleMaster.value.downloadUrl sampleMaster.value.fileName
          "master" :=
  C9_master_universality [sampleMaster] " master1 " "any-p" 5 sampleMaster
    (by decide) (by decide) (by decide) (by decide) (by decide)
    rfl rfl
    (by intro t ht; simp [sampleMaster] at ht)
    (by
      intro l hl
      simp [sampleMaster] at hl
      subst hl
      decide)

/-- C10: the expiry comparison is strict — the Expired rejection can occur
only when the current time is strictly past `expiresAt`; at the instant
`now = expiresAt` the Expired check does not fire and redemption succeeds
when every other check passes. -/
theorem C10_expiry_strict (r : RedeemCode) (p : String) (now : Int) :
    (evaluateCode r p now = .expired → ∃ t, r.expiresAt = some t ∧ t < now)
  ∧ (r.expiresAt = some now → evaluateCode r p now ≠ .expired)
  ∧ (r.expiresAt = some now → r.isActive = true →
      (∀ l, r.usageLimit = some l → r.usageCount < l) →
      scopeOkB r p = true →
      evaluateCode r p now
        = .success r.value.downloadUrl r.value.fileName
            (if r.isMasterCode then "master" else "product")) := by
  have hmain : evaluateCode r p now = .expired →
      ∃ t, r.expiresAt = some t ∧ t < now := by
    intro h
    unfold evaluateCode at h
    by_cases h1 : (!r.isActive) = true
    · rw [if_pos h1] at h
      simp at h
    · rw [if_neg h1] at h
      by_cases h2 : expiredB r now = true
      · unfold expiredB at h2
        cases hx : r.expiresAt with
        | none =>
          rw [hx] at h2
          simp at h2
        | some t =>
          rw [hx] at h2
          exact ⟨t, rfl, of_decide_eq_true h2⟩
      · rw [if_neg h2] at h
        by_cases h3 : limitReachedB r = true
        · rw [if_pos h3] at h
          simp at h
        · rw [if_neg h3] at h
          by_cases h4 : (!scopeOkB r p) = true
          · rw [if_pos h4] at h
            simp at h
          · rw [if_neg h4] at h
            simp at h
  refine ⟨hmain, ?_, ?_⟩
  · intro hx hcon
    obtain ⟨t, ht, hlt⟩ := hmain hcon
    rw [hx] at ht
    cases ht
    exact lt_irrefl now hlt
  · intro hx ha hlim hscope
    refine evaluateCode_success r p now ha ?_ hlim hscope
    intro t ht
    rw [hx] at ht
    cases ht
    exact lt_irrefl now

/-- C10 witness: the sample master code expiring exactly now (5) is not
Expired and redeems successfully. -/
theorem C10_expiry_strict_witness :
    ({ sampleMaster with expiresAt := some 5 } : RedeemCode).expiresAt = some 5
  ∧ evaluateCode { sampleMaster with expiresAt := some 5 } "p1" 5
      = .success (some "https://dl.example/x.zip") (some "x.zip") "master" := by
  refine ⟨rfl, ?_⟩
  have h := (C10_expiry_strict { sampleMaster with expiresAt := some 5 }
      "p1" 5).2.2 rfl rfl
    (by
      intro l hl
      simp [sampleMaster] at hl
      subst hl
      decide)
    (by decide)
  simpa [sampleMaster, sampleValue] using h

/-- Every run of the redemption route either found a record and, on success,
incremented it, or rejected and left the store untouched. -/
theorem redeemApi_cases (store : Store) (code productId : String)
    (now : Int) :
    (∃ r d f ct,
      getRedeemCodeByCode store (toUpperCaseJs (jsTrim code)) = some r
      ∧ redeemApi store code productId now
          = (.success d f ct, incrementRedeemCodeUsage store r.id))
  ∨ ((redeemApi store code productId now).2 = store
      ∧ ∀ d f ct, (redeemApi store code productId now).1 ≠ .success d f ct) := by
  unfold redeemApi
  by_cases hC : 1 ≤ (jsTrim code).length ∧ (jsTrim code).length ≤ 100 ∧
      1 ≤ (jsTrim productId).length ∧ (jsTrim productId).length ≤ 100
  · rw [if_pos hC]
    have hne : jsTrim code ≠ "" := by
      intro h
      rw [h] at hC
      exact absurd hC.1 (by decide)
    have hpne : jsTrim productId ≠ "" := by
      intro h
      rw [h] at hC
      exact absurd hC.2.2.1 (by decide)
    rw [redeemHandler_eq, beq_empty_eq_false hne, beq_empty_eq_false hpne]
    simp only [Bool.or_self, Bool.false_eq_true, if_false]
    cases hq : getRedeemCodeByCode store (toUpperCaseJs (jsTrim code)) with
    | none => exact Or.inr ⟨rfl, by simp⟩
    | some r =>
      dsimp only
      cases he : evaluateCode r (jsTrim productId) now with
      | success d f ct => exact Or.inl ⟨r, d, f, ct, rfl, rfl⟩
      | validationError => exact Or.inr ⟨rfl, fun d f ct h => by simp at h⟩
      | missingParams => exact Or.inr ⟨rfl, fun d f ct h => by simp at h⟩
      | notFound => exact Or.inr ⟨rfl, fun d f ct h => by simp at h⟩
      | inactive => exact Or.inr ⟨rfl, fun d f ct h => by simp at h⟩
      | expired => exact Or.inr ⟨rfl, fun d f ct h => by simp at h⟩
      | usageLimitReached => exact Or.inr ⟨rfl, fun d f ct h => by simp at h⟩
      | scopeMismatch => exact Or.inr ⟨rfl, fun d f ct h => by simp at h⟩
  · rw [if_neg hC]
    exact Or.inr ⟨rfl, by simp⟩

/-- C3: on a store with distinct record ids, every rejected redemption call
leaves the store exactly as it was, and every successful call mutates the
store in exactly one place — the looked-up record has its `usageCount`
incremented by one — leaving every other record, and every other field,
untouched. -/
theorem C3_redeem_side_effects (store : Store) (code productId : String)
    (now : Int) (hids : (store.map (fun r => r.id)).Nodup) :
    ((∀ d f ct, (redeemApi store code productId now).1 ≠ .success d f ct) →
        (redeemApi store code productId now).2 = store)
  ∧ (∀ d f ct, (redeemApi store code productId now).1 = .success d f ct →
      ∃ pre post r, store = pre ++ r :: post
        ∧ getRedeemCodeByCode store (toUpperCaseJs (jsTrim code)) = some r
        ∧ (redeemApi store code productId now).2
            = pre ++ { r with usageCount := r.usageCount + 1 } :: post) := by
  rcases redeemApi_cases store code productId now with
    ⟨r, d, f, ct, hq, heq⟩ | ⟨hst, hns⟩
  · constructor
    · intro hnone
      exact absurd (by rw [heq]) (hnone d f ct)
    · intro d' f' ct' _
      have hr : r ∈ store := List.mem_of_find?_eq_some hq
      obtain ⟨pre, post, hsplit, hpre, hpost⟩ := nodupIds_split store r hids hr
      refine ⟨pre, post, r, hsplit, hq, ?_⟩
      rw [heq]
      show incrementRedeemCodeUsage store r.id = _
      rw [hsplit]
      exact incrementRedeemCodeUsage_split pre post r hpre hpost
  · exact ⟨fun _ => hst, fun d f ct h => absurd h (hns d f ct)⟩

/-- C3 witness: a not-found rejection leaves the sample store unchanged. -/
theorem C3_redeem_side_effects_witness :
    (redeemApi [sampleMaster] "BOGUS" "p1" 5).2 = [sampleMaster] :=
  (C3_redeem_side_effects [sampleMaster] "BOGUS" "p1" 5 (by decide)).1
    (by
      intro d f ct h
      rw [show (redeemApi [sampleMaster] "BOGUS" "p1" 5).1 = .notFound from
        by decide] at h
      exact RedeemResult.noConfusion h)

end Shop
